import Mathlib

/-!
Verification of the motorcycle-listing rating service (`src/app.py`).

The development shallowly embeds the Python source:
* the text normalization of `extract_data_from_url` (lines 135-138),
* the regex-based field extraction (`extract`, lines 140-152) via a small
  backtracking regex engine with Python `re.search` semantics
  (leftmost start position, greedy quantifiers, first match wins,
  one capture group per pattern),
* the completeness classification (lines 154-161),
* the feature transform and prediction `predict_rating` (lines 114-124),
  with the opaque regression model as a function parameter and IEEE
  specials (nan, +inf, -inf) modelled by an explicit `PyFloat` type over ℝ,
* the two endpoints `predict_from_url` (lines 170-180) and
  `predict_manual` (lines 183-189), whose distinct exception handling is
  modelled by distinct response constructors.

Character classes are the ASCII readings of Python's `\d`, `\s` and `.`
(the texts of interest contain no non-ASCII digits or whitespace).
-/

deriving instance DecidableEq for Except

/-- Python `\d` (ASCII reading): a decimal digit. -/
def isDigitChar (c : Char) : Bool := '0' ≤ c && c ≤ '9'

/-- Python `\s` (ASCII reading): whitespace. -/
def isSpaceChar (c : Char) : Bool :=
  c = ' ' || c = '\t' || c = '\n' || c = '\x0d' || c = '\x0b' || c = '\x0c'

/-- Regular-expression abstract syntax, covering the constructs used by the
patterns in `extract_data_from_url`.  `group` is the (single) capturing
group `( ... )` of each pattern; `(?: ... )` needs no constructor. -/
inductive RE where
  | eps : RE
  | cls (p : Char → Bool) : RE
  | seq (a b : RE) : RE
  | alt (a b : RE) : RE
  | star (a : RE) : RE
  | group (a : RE) : RE

/-- Later (rightmost) capture wins, as in Python's `re`. -/
def capOr (a b : Option (List Char)) : Option (List Char) :=
  match a with
  | some x => some x
  | none => b

/-- Greedy `star` iteration: `body` matches one copy of the starred regex;
an iteration must consume at least one character (Python's `re` likewise
stops repeating on an empty match).  More iterations have higher priority
(greediness); `fuel` bounds the number of iterations. -/
def starLoop (body : List Char → List (Option (List Char) × List Char)) :
    Nat → List Char → List (Option (List Char) × List Char)
  | 0, s => [(none, s)]
  | fuel + 1, s =>
    ((body s).flatMap fun pr =>
      if pr.2.length < s.length then
        (starLoop body fuel pr.2).map fun pr2 => (capOr pr2.1 pr.1, pr2.2)
      else []) ++ [(none, s)]

/-- All ways the regex can match a prefix of `s`, highest backtracking
priority first (Python semantics: `alt` prefers the left branch, `star` is
greedy).  Each result is the value of the capture group (if it
participated) paired with the unconsumed rest of the input.  `fuel` bounds
`star` iterations; every `star` body consumes at least one character, so
`s.length + 2` fuel is always enough. -/
def mall (fuel : Nat) : RE → List Char → List (Option (List Char) × List Char)
  | .eps, s => [(none, s)]
  | .cls p, s =>
    match s with
    | [] => []
    | c :: rest => if p c then [(none, rest)] else []
  | .seq a b, s =>
    (mall fuel a s).flatMap fun pr =>
      (mall fuel b pr.2).map fun pr2 => (capOr pr2.1 pr.1, pr2.2)
  | .alt a b, s => mall fuel a s ++ mall fuel b s
  | .group a, s =>
    (mall fuel a s).map fun pr => (some (s.take (s.length - pr.2.length)), pr.2)
  | .star a, s => starLoop (mall fuel a) fuel s

/-- Python `re.search`: try each start position from the left; at the first
position where the pattern matches, return the capture group of the
highest-priority match (`m.group(1)`; `none` when the group did not
participate).  Returns `none` when the pattern matches nowhere. -/
def research (fuel : Nat) (r : RE) (s : List Char) : Option (Option (List Char)) :=
  match (mall fuel r s).head? with
  | some pr => some pr.1
  | none =>
    match s with
    | [] => none
    | _ :: rest => research fuel r rest

/- Pattern combinators mirroring the regex syntax of the source. -/

/-- A literal character. -/
def chrRE (c : Char) : RE := .cls (fun x => x = c)

/-- A literal string. -/
def strRE (s : String) : RE := s.data.foldr (fun c r => .seq (chrRE c) r) .eps

/-- `X?` (greedy). -/
def optRE (r : RE) : RE := .alt r .eps

/-- `X+` (greedy). -/
def rep1 (r : RE) : RE := .seq r (.star r)

/-- `\d`. -/
def dig : RE := .cls isDigitChar

/-- `.` (any character but newline). -/
def anyRE : RE := .cls (fun c => c ≠ '\n')

/-- `[:\s]`. -/
def colonOrSpace : RE := .cls (fun c => c = ':' || isSpaceChar c)

/-- `[\d,]`. -/
def digitOrComma : RE := .cls (fun c => isDigitChar c || c = ',')

/-- `\d{1,3}` (greedy). -/
def dig13 : RE := .seq dig (.alt (.seq dig (.alt dig .eps)) .eps)

/-- `\d{2,4}` (greedy). -/
def dig24 : RE := .seq dig (.seq dig (.alt (.seq dig (.alt dig .eps)) .eps))

/-- `\d{1,3}(?:,\d{3})*` — grouped digits with comma thousands separators. -/
def groupedDigits : RE :=
  .seq dig13 (.star (.seq (chrRE ',') (.seq dig (.seq dig dig))))

/-- `מחיר[:\s]*([\d,]+)\s*₪?` (app.py line 147, first price pattern). -/
def priceRE1 : RE :=
  .seq (strRE "מחיר")
    (.seq (.star colonOrSpace)
      (.seq (.group (rep1 digitOrComma))
        (.seq (.star (.cls isSpaceChar)) (optRE (chrRE '₪')))))

/-- `([\d,]+)\s*₪` (app.py line 147, second price pattern). -/
def priceRE2 : RE :=
  .seq (.group (rep1 digitOrComma))
    (.seq (.star (.cls isSpaceChar)) (chrRE '₪'))

/-- `שנה[:\s]*(20\d{2})` (app.py line 148, the only year pattern). -/
def yearRE : RE :=
  .seq (strRE "שנה")
    (.seq (.star colonOrSpace)
      (.group (.seq (chrRE '2') (.seq (chrRE '0') (.seq dig dig)))))

/-- `(?:ק.?ילומ.?|מרחק|נסיעה)` — the distance keyword alternation. -/
def kmKeyword : RE :=
  .alt (.seq (chrRE 'ק') (.seq (optRE anyRE) (.seq (strRE "ילומ") (optRE anyRE))))
    (.alt (strRE "מרחק") (strRE "נסיעה"))

/-- `(?:ק.?ילומ.?|מרחק|נסיעה)[:\s]*(\d{1,3}(?:,\d{3})*)` (line 149). -/
def kmRE1 : RE := .seq kmKeyword (.seq (.star colonOrSpace) (.group groupedDigits))

/-- `(\d{1,3}(?:,\d{3})*)\s*(?:ק.?\"?מ)` (line 149, second km pattern). -/
def kmRE2 : RE :=
  .seq (.group groupedDigits)
    (.seq (.star (.cls isSpaceChar))
      (.seq (chrRE 'ק') (.seq (optRE anyRE) (.seq (optRE (chrRE '"')) (chrRE 'מ')))))

/-- `נפח\s*מנוע[:\s]*(\d{2,4})` (line 150, first engine pattern). -/
def engineRE1 : RE :=
  .seq (strRE "נפח")
    (.seq (.star (.cls isSpaceChar))
      (.seq (strRE "מנוע") (.seq (.star colonOrSpace) (.group dig24))))

/-- `(\d{2,4})\s*סמ` (line 150, second engine pattern). -/
def engineRE2 : RE :=
  .seq (.group dig24) (.seq (.star (.cls isSpaceChar)) (strRE "סמ"))

/-- `יד\s*(\d)` (line 151, the ownership pattern). -/
def handRE : RE := .seq (strRE "יד") (.seq (.star (.cls isSpaceChar)) (.group dig))

/- Text normalization (app.py lines 136-138). -/

/-- Line 136: `re.sub(r'[‏‎]', '', text)` — drop bidi marks. -/
def stripBidi (s : List Char) : List Char :=
  s.filter (fun c => !(c = '‏' || c = '‎'))

/-- Squeeze runs of `' '` down to a single `' '`. -/
def squeezeSpaces : List Char → List Char
  | [] => []
  | [c] => [c]
  | a :: b :: rest =>
    if a = ' ' && b = ' ' then squeezeSpaces (b :: rest)
    else a :: squeezeSpaces (b :: rest)

/-- Line 137: `re.sub(r'\s+', ' ', text)` — each maximal whitespace run
becomes a single space (every whitespace character is first mapped to
`' '`, then runs of spaces are squeezed). -/
def collapseWS (s : List Char) : List Char :=
  squeezeSpaces (s.map (fun c => if isSpaceChar c then ' ' else c))

/-- `str.replace` for a single character. -/
def replChar (a b : Char) (s : List Char) : List Char :=
  s.map (fun c => if c = a then b else c)

/-- Line 138: `text.replace("״", '"').replace("׳", "'").replace('.', ',')`,
chained after lines 136-137. -/
def normalizeText (s : List Char) : List Char :=
  replChar '.' ','
    (replChar '׳' '\''
      (replChar '״' '"' (collapseWS (stripBidi s))))

/- Numeric post-processing of a match (app.py line 144). -/

/-- Decimal value of a digit list (the value `int` gives it). -/
def digitsVal (ds : List Char) : Nat :=
  ds.foldl (fun acc c => 10 * acc + (c.toNat - 48)) 0

/-- Line 144: `int(re.sub(r'\D', '', m.group(1)))`.  Deleting every
non-digit can leave the empty string, on which Python's `int` raises
`ValueError`. -/
def pyIntOfGroup (g : List Char) : Except String Int :=
  let ds := g.filter isDigitChar
  if ds.isEmpty then .error "ValueError" else .ok (digitsVal ds : Nat)

/-- The inner helper `extract(patterns)` (lines 140-145): first pattern
that matches wins; its group, stripped of non-digits, is parsed as an
integer.  `m.group(1)` being `None` would make `re.sub` raise `TypeError`.
No pattern matching yields Python `None` (`Option.none` here). -/
def extractField (fuel : Nat) (ps : List RE) (text : List Char) :
    Except String (Option Int) :=
  match ps with
  | [] => .ok none
  | p :: rest =>
    match research fuel p text with
    | some (some g) => (pyIntOfGroup g).map some
    | some none => .error "TypeError"
    | none => extractField fuel rest text

/-- Lines 151-152: `hand_match = re.search(r'יד\s*(\d)', text)`;
`hand = int(hand_match.group(1)) if hand_match else None`. -/
def handValue (fuel : Nat) (text : List Char) : Except String (Option Int) :=
  match research fuel handRE text with
  | some (some g) => .ok (some (digitsVal g : Nat))
  | some none => .error "TypeError"
  | none => .ok none

/-- Outcome of `extract_data_from_url` (the three dict shapes it returns):
`complete`/`missingSome` mirror `{"complete": ...}`/`{"partial": ...}` and
`failed` mirrors `{"error": ...}` (both the no-fields case and the
`except` branch). -/
inductive ExtractOutcome where
  | complete (year engine_cc hand km price : Int)
  | missingSome (year engine_cc hand km price : Option Int)
  | failed (msg : String)
deriving DecidableEq

/-- Lines 154-161.  `missing` is the list of unresolved keys, and
`any(missing)` is Python truthiness of that list (nonempty). -/
def classify (year engine_cc hand km price : Option Int) : ExtractOutcome :=
  let anyMissing :=
    year.isNone || engine_cc.isNone || hand.isNone || km.isNone || price.isNone
  let anyPresent :=
    year.isSome || engine_cc.isSome || hand.isSome || km.isSome || price.isSome
  if anyMissing && anyPresent then
    .missingSome year engine_cc hand km price
  else
    match year, engine_cc, hand, km, price with
    | some y, some e, some h, some k, some p => .complete y e h k p
    | _, _, _, _, _ => .failed "No valid fields found."

/-- `extract_data_from_url` (lines 130-164) applied to the visible page
text (the network fetch and `BeautifulSoup.get_text` produce `pageText`;
a fetch failure is the `failed` case directly).  The surrounding
`try/except` turns any raised `ValueError`/`TypeError` into the
`"Scraping failed: ..."` error dict. -/
def extract_data_from_url (pageText : String) : ExtractOutcome :=
  let t := normalizeText pageText.data
  let fuel := t.length + 2
  match (do
    let price ← extractField fuel [priceRE1, priceRE2] t
    let year ← extractField fuel [yearRE] t
    let km ← extractField fuel [kmRE1, kmRE2] t
    let engine_cc ← extractField fuel [engineRE1, engineRE2] t
    let hand ← handValue fuel t
    pure (classify year engine_cc hand km price) :
      Except String ExtractOutcome) with
  | .ok r => r
  | .error e => .failed ("Scraping failed: " ++ e)

/- Prediction (app.py lines 114-124, 170-189).  Floats are idealized by ℝ,
with the IEEE specials the external model could return made explicit. -/

/-- A Python float: a finite real, `nan`, `inf` or `-inf`. -/
inductive PyFloat where
  | fin (x : ℝ) : PyFloat
  | nan : PyFloat
  | inf : PyFloat
  | ninf : PyFloat

/-- `np.clip(v, lo, hi)` (`lo ≤ hi`): `nan` propagates, infinities clamp
to the corresponding bound, finite values clamp pointwise. -/
noncomputable def npClip (v : PyFloat) (lo hi : ℝ) : PyFloat :=
  match v with
  | .nan => .nan
  | .inf => .fin hi
  | .ninf => .fin lo
  | .fin x => .fin (min hi (max lo x))

/-- Round to the nearest integer, ties to even (Python's `round`). -/
noncomputable def roundHalfEven (x : ℝ) : ℤ :=
  if Int.fract x < 1 / 2 then ⌊x⌋
  else if 1 / 2 < Int.fract x then ⌊x⌋ + 1
  else if Even ⌊x⌋ then ⌊x⌋ else ⌊x⌋ + 1

/-- `round(v, 2)`: round a finite float to 2 decimal places; specials pass
through (`round(nan, 2)` is `nan`, etc.). -/
noncomputable def pyRound2 : PyFloat → PyFloat
  | .fin x => .fin ((roundHalfEven (x * 100) : ℝ) / 100)
  | v => v

/-- Lines 115-123: the row `np.array([[...]])` handed to the model.
`maxPrice` stands for `df["price"].max()`; all divisors other than
`engine_cc` are at least 1 by construction. -/
noncomputable def featureRow (maxPrice : ℝ) (year engine_cc hand km price : ℤ) :
    List ℝ :=
  let age : ℤ := 2025 - year
  let km_per_year : ℝ := (km : ℝ) / ((max 1 age : ℤ) : ℝ)
  let price_per_cc : ℝ := (price : ℝ) / (engine_cc : ℝ)
  let price_per_year : ℝ := (price : ℝ) / ((max 1 age : ℤ) : ℝ)
  let normalized_price : ℝ := (price : ℝ) / maxPrice
  let log_km : ℝ := Real.log (1 + (km : ℝ))
  let log_price : ℝ := Real.log (1 + (price : ℝ))
  [((age : ℤ) : ℝ), (engine_cc : ℝ), (hand : ℝ), (km : ℝ), (price : ℝ),
    km_per_year, price_per_cc, price_per_year, normalized_price, log_km, log_price]

/-- `predict_rating` (lines 114-124).  `mdl` is the opaque
`model.predict`.  With `engine_cc = 0` the integer division
`price / engine_cc` at line 117 raises `ZeroDivisionError` before the
model is consulted; otherwise the model output is clamped to `[0, 10]`
and rounded to 2 decimals. -/
noncomputable def predict_rating (mdl : List ℝ → PyFloat) (maxPrice : ℝ)
    (year engine_cc hand km price : ℤ) : Except String PyFloat :=
  if engine_cc = 0 then .error "division by zero"
  else .ok (pyRound2 (npClip (mdl (featureRow maxPrice year engine_cc hand km price)) 0 10))

/-- A JSON-level response of the two endpoints.  `uncaughtExc` marks an
exception escaping the handler (FastAPI turns it into a 500, crashing the
request): only `predict_from_url` can produce it, since `predict_manual`
wraps its body in `try/except`. -/
inductive UrlResponse where
  | rating (r : PyFloat) : UrlResponse
  | errorJson (msg : String) : UrlResponse
  | missingJson (year engine_cc hand km price : Option Int) : UrlResponse
  | uncaughtExc (msg : String) : UrlResponse

/-- `predict_from_url` (lines 170-180): route on the extraction outcome;
the `predict_rating` call at line 179 is not inside any `try/except`, so
an exception it raises escapes. -/
noncomputable def predict_from_url (mdl : List ℝ → PyFloat) (maxPrice : ℝ)
    (pageText : String) : UrlResponse :=
  match extract_data_from_url pageText with
  | .failed e => .errorJson e
  | .missingSome y e h k p => .missingJson y e h k p
  | .complete y e h k p =>
    match predict_rating mdl maxPrice y e h k p with
    | .ok r => .rating r
    | .error exc => .uncaughtExc exc

/-- `predict_manual` (lines 183-189): the same call wrapped in
`try/except`, so a raised exception becomes `{"error": str(e)}`. -/
noncomputable def predict_manual (mdl : List ℝ → PyFloat) (maxPrice : ℝ)
    (year engine_cc hand km price : ℤ) : UrlResponse :=
  match predict_rating mdl maxPrice year engine_cc hand km price with
  | .ok r => .rating r
  | .error exc => .errorJson exc

/- Declarative semantics of the regex engine and its soundness: whatever
`mall`/`research` return really is a match.  This is what turns concrete
pattern definitions into universal facts about every input text. -/

/-- `Caps r u c`: regex `r` matches exactly the string `u`, with capture
group value `c` (merging as in `mall`: a later capture wins). -/
inductive Caps : RE → List Char → Option (List Char) → Prop where
  | eps : Caps .eps [] none
  | cls {p : Char → Bool} {c : Char} : p c = true → Caps (.cls p) [c] none
  | seq {a b : RE} {u v : List Char} {ca cb : Option (List Char)} :
      Caps a u ca → Caps b v cb → Caps (.seq a b) (u ++ v) (capOr cb ca)
  | altL {a b : RE} {u : List Char} {c : Option (List Char)} :
      Caps a u c → Caps (.alt a b) u c
  | altR {a b : RE} {u : List Char} {c : Option (List Char)} :
      Caps b u c → Caps (.alt a b) u c
  | starNil {a : RE} : Caps (.star a) [] none
  | starCons {a : RE} {u v : List Char} {cu cv : Option (List Char)} :
      Caps a u cu → Caps (.star a) v cv → Caps (.star a) (u ++ v) (capOr cv cu)
  | group {a : RE} {u : List Char} {c : Option (List Char)} :
      Caps a u c → Caps (.group a) u (some u)

theorem starLoop_sound {a : RE} {body : List Char → List (Option (List Char) × List Char)}
    (hb : ∀ s pr, pr ∈ body s → ∃ u, s = u ++ pr.2 ∧ Caps a u pr.1) :
    ∀ (fuel : Nat) (s : List Char) (pr : Option (List Char) × List Char),
      pr ∈ starLoop body fuel s → ∃ u, s = u ++ pr.2 ∧ Caps (.star a) u pr.1 := by
  intro fuel
  induction fuel with
  | zero =>
    intro s pr h
    simp only [starLoop, List.mem_singleton] at h
    subst h
    exact ⟨[], rfl, .starNil⟩
  | succ n ih =>
    intro s pr h
    simp only [starLoop, List.mem_append, List.mem_singleton] at h
    rcases h with h | h
    · rcases List.mem_flatMap.mp h with ⟨pr1, hpr1, hin⟩
      by_cases hlt : pr1.2.length < s.length
      · simp only [if_pos hlt] at hin
        rcases List.mem_map.mp hin with ⟨pr2, hpr2, hpr⟩
        obtain ⟨u1, hu1, hc1⟩ := hb s pr1 hpr1
        obtain ⟨u2, hu2, hc2⟩ := ih pr1.2 pr2 hpr2
        refine ⟨u1 ++ u2, ?_, ?_⟩
        · rw [← hpr]
          simp only [hu1, hu2, List.append_assoc]
        · rw [← hpr]
          exact Caps.starCons hc1 hc2
      · simp only [if_neg hlt, List.not_mem_nil] at hin
    · subst h
      exact ⟨[], rfl, .starNil⟩

theorem mall_sound (fuel : Nat) (r : RE) :
    ∀ (s : List Char) (pr : Option (List Char) × List Char),
      pr ∈ mall fuel r s → ∃ u, s = u ++ pr.2 ∧ Caps r u pr.1 := by
  induction r with
  | eps =>
    intro s pr h
    simp only [mall, List.mem_singleton] at h
    subst h
    exact ⟨[], rfl, .eps⟩
  | cls p =>
    intro s pr h
    match s with
    | [] => simp only [mall, List.not_mem_nil] at h
    | c :: rest =>
      simp only [mall] at h
      by_cases hc : p c
      · simp only [if_pos hc, List.mem_singleton] at h
        subst h
        exact ⟨[c], rfl, .cls hc⟩
      · simp only [if_neg hc, List.not_mem_nil] at h
  | seq a b iha ihb =>
    intro s pr h
    simp only [mall] at h
    rcases List.mem_flatMap.mp h with ⟨pr1, hpr1, hin⟩
    rcases List.mem_map.mp hin with ⟨pr2, hpr2, hpr⟩
    obtain ⟨u1, hu1, hc1⟩ := iha s pr1 hpr1
    obtain ⟨u2, hu2, hc2⟩ := ihb pr1.2 pr2 hpr2
    refine ⟨u1 ++ u2, ?_, ?_⟩
    · rw [← hpr]
      simp only [hu1, hu2, List.append_assoc]
    · rw [← hpr]
      exact Caps.seq hc1 hc2
  | alt a b iha ihb =>
    intro s pr h
    simp only [mall, List.mem_append] at h
    rcases h with h | h
    · obtain ⟨u, hu, hc⟩ := iha s pr h
      exact ⟨u, hu, .altL hc⟩
    · obtain ⟨u, hu, hc⟩ := ihb s pr h
      exact ⟨u, hu, .altR hc⟩
  | star a iha =>
    intro s pr h
    simp only [mall] at h
    exact starLoop_sound iha fuel s pr h
  | group a iha =>
    intro s pr h
    simp only [mall] at h
    rcases List.mem_map.mp h with ⟨pr1, hpr1, hpr⟩
    obtain ⟨u, hu, hc⟩ := iha s pr1 hpr1
    have htake : s.take (s.length - pr1.2.length) = u := by
      rw [hu, List.length_append, Nat.add_sub_cancel, List.take_left]
    refine ⟨u, ?_, ?_⟩
    · rw [← hpr]
      exact hu
    · rw [← hpr]
      simp only [htake]
      exact Caps.group hc

/-- Soundness of `re.search`: a returned capture value comes from a real
match of the pattern (at some position in the text). -/
theorem research_sound (fuel : Nat) (r : RE) :
    ∀ (s : List Char) (c : Option (List Char)),
      research fuel r s = some c → ∃ u, Caps r u c := by
  intro s
  induction s with
  | nil =>
    intro c h
    simp only [research] at h
    match hm : (mall fuel r []).head? with
    | some pr =>
      rw [hm] at h
      obtain ⟨u, _, hc⟩ := mall_sound fuel r [] pr (List.mem_of_mem_head? hm)
      cases h
      exact ⟨u, hc⟩
    | none => rw [hm] at h; cases h
  | cons x rest ih =>
    intro c h
    simp only [research] at h
    match hm : (mall fuel r (x :: rest)).head? with
    | some pr =>
      rw [hm] at h
      obtain ⟨u, _, hc⟩ := mall_sound fuel r (x :: rest) pr (List.mem_of_mem_head? hm)
      cases h
      exact ⟨u, hc⟩
    | none =>
      rw [hm] at h
      exact ih c h

/-- Whether a regex contains the capturing group. -/
def hasGroup : RE → Bool
  | .eps => false
  | .cls _ => false
  | .seq a b => hasGroup a || hasGroup b
  | .alt a b => hasGroup a || hasGroup b
  | .star a => hasGroup a
  | .group _ => true

/-- A regex without a group never produces a capture. -/
theorem cap_of_noGroup {r : RE} {u : List Char} {c : Option (List Char)}
    (h : Caps r u c) (hg : hasGroup r = false) : c = none := by
  induction h with
  | eps => rfl
  | cls _ => rfl
  | seq _ _ iha ihb =>
    simp only [hasGroup, Bool.or_eq_false_iff] at hg
    rw [iha hg.1, ihb hg.2]
    rfl
  | altL _ iha =>
    simp only [hasGroup, Bool.or_eq_false_iff] at hg
    exact iha hg.1
  | altR _ ihb =>
    simp only [hasGroup, Bool.or_eq_false_iff] at hg
    exact ihb hg.2
  | starNil => rfl
  | starCons _ _ iha ihs =>
    simp only [hasGroup] at hg
    rw [iha hg, ihs (by simp only [hasGroup, hg])]
    rfl
  | group _ _ => simp [hasGroup] at hg

theorem strRE_noGroup (s : String) : hasGroup (strRE s) = false := by
  show hasGroup (s.data.foldr (fun c r => .seq (chrRE c) r) .eps) = false
  induction s.data with
  | nil => rfl
  | cons c cs ih =>
    simp only [List.foldr, hasGroup, chrRE, Bool.false_or]
    exact ih

/-- Inversion for a character class. -/
theorem caps_cls {p : Char → Bool} {u : List Char} {c : Option (List Char)}
    (h : Caps (.cls p) u c) : ∃ ch, u = [ch] ∧ p ch = true ∧ c = none := by
  cases h with
  | cls hc => exact ⟨_, rfl, hc, rfl⟩

/-- Inversion for a literal character. -/
theorem caps_chr {ch : Char} {u : List Char} {c : Option (List Char)}
    (h : Caps (chrRE ch) u c) : u = [ch] ∧ c = none := by
  obtain ⟨x, hu, hx, hc⟩ := caps_cls h
  have : x = ch := by
    have := of_decide_eq_true hx
    exact this
  subst this
  exact ⟨hu, hc⟩

/-- Inversion for a sequence. -/
theorem caps_seq {a b : RE} {u : List Char} {c : Option (List Char)}
    (h : Caps (.seq a b) u c) :
    ∃ u1 u2 c1 c2, u = u1 ++ u2 ∧ Caps a u1 c1 ∧ Caps b u2 c2 ∧ c = capOr c2 c1 := by
  cases h with
  | seq h1 h2 => exact ⟨_, _, _, _, rfl, h1, h2, rfl⟩

/-- Inversion for the capture group. -/
theorem caps_group {a : RE} {u : List Char} {c : Option (List Char)}
    (h : Caps (.group a) u c) : c = some u ∧ ∃ c0, Caps a u c0 := by
  cases h with
  | group h0 => exact ⟨rfl, _, h0⟩

/-- The digit-value of a digit character is at most 9. -/
theorem digit_toNat_le {d : Char} (hd : isDigitChar d = true) :
    48 ≤ d.toNat ∧ d.toNat ≤ 57 := by
  simp only [isDigitChar, Bool.and_eq_true, decide_eq_true_eq] at hd
  obtain ⟨h1, h2⟩ := hd
  constructor
  · exact h1
  · exact h2

/-- The four characters captured by the year group `(20\d{2})`. -/
theorem year_group_shape {u : List Char} {c : Option (List Char)}
    (h : Caps (.seq (chrRE '2') (.seq (chrRE '0') (.seq dig dig))) u c) :
    ∃ d1 d2, u = ['2', '0', d1, d2] ∧ isDigitChar d1 = true ∧ isDigitChar d2 = true := by
  obtain ⟨u1, u2, c1, c2, hu, h1, h2, hc⟩ := caps_seq h
  obtain ⟨hu1, -⟩ := caps_chr h1
  obtain ⟨u3, u4, c3, c4, hu2, h3, h4, -⟩ := caps_seq h2
  obtain ⟨hu3, -⟩ := caps_chr h3
  obtain ⟨u5, u6, c5, c6, hu4, h5, h6, -⟩ := caps_seq h4
  obtain ⟨d1, hu5, hd1, -⟩ := caps_cls h5
  obtain ⟨d2, hu6, hd2, -⟩ := caps_cls h6
  subst hu1 hu3 hu5 hu6 hu4 hu2 hu
  exact ⟨d1, d2, rfl, hd1, hd2⟩

/-- Any capture of the full year pattern is of the shape `20\d\d`. -/
theorem yearRE_capture {u : List Char} {g : List Char}
    (h : Caps yearRE u (some g)) :
    ∃ d1 d2, g = ['2', '0', d1, d2] ∧ isDigitChar d1 = true ∧ isDigitChar d2 = true := by
  obtain ⟨u1, u2, c1, c2, hu, h1, h2, hc⟩ := caps_seq h
  have hc1 : c1 = none := cap_of_noGroup h1 (strRE_noGroup _)
  obtain ⟨u3, u4, c3, c4, hu2, h3, h4, hc2⟩ := caps_seq h2
  have hc3 : c3 = none := cap_of_noGroup h3 (by rfl)
  obtain ⟨hc4, c0, h5⟩ := caps_group h4
  subst hc1 hc3 hc4
  simp only [capOr] at hc hc2
  subst hc2
  simp only [capOr] at hc
  cases hc
  exact year_group_shape h5

/-- Any capture of the hand pattern is a single digit character. -/
theorem handRE_capture {u : List Char} {g : List Char}
    (h : Caps handRE u (some g)) : ∃ d, g = [d] ∧ isDigitChar d = true := by
  obtain ⟨u1, u2, c1, c2, hu, h1, h2, hc⟩ := caps_seq h
  have hc1 : c1 = none := cap_of_noGroup h1 (strRE_noGroup _)
  obtain ⟨u3, u4, c3, c4, hu2, h3, h4, hc2⟩ := caps_seq h2
  have hc3 : c3 = none := cap_of_noGroup h3 (by rfl)
  obtain ⟨hc4, c0, h5⟩ := caps_group h4
  subst hc1 hc3 hc4
  simp only [capOr] at hc hc2
  subst hc2
  simp only [capOr] at hc
  cases hc
  obtain ⟨d, hu5, hd, -⟩ := caps_cls h5
  exact ⟨d, hu5, hd⟩

theorem digitsVal_year {d1 d2 : Char} :
    digitsVal ['2', '0', d1, d2] = 2000 + 10 * (d1.toNat - 48) + (d2.toNat - 48) := by
  have h2 : '2'.toNat = 50 := rfl
  have h0 : '0'.toNat = 48 := rfl
  simp only [digitsVal, List.foldl, h2, h0]
  omega

theorem pyIntOfGroup_year {d1 d2 : Char} (hd1 : isDigitChar d1 = true)
    (hd2 : isDigitChar d2 = true) :
    pyIntOfGroup ['2', '0', d1, d2] =
      .ok ((2000 + 10 * (d1.toNat - 48) + (d2.toNat - 48) : ℕ) : ℤ) := by
  have hfil : List.filter isDigitChar ['2', '0', d1, d2] = ['2', '0', d1, d2] := by
    apply List.filter_eq_self.mpr
    intro a ha
    simp only [List.mem_cons, List.not_mem_nil, or_false] at ha
    rcases ha with rfl | rfl | rfl | rfl
    · decide
    · decide
    · exact hd1
    · exact hd2
  simp only [pyIntOfGroup, hfil, List.isEmpty, if_neg, digitsVal_year]
  rfl

/-- Any resolved year is forced into `[2000, 2099]` by the shape `20\d{2}`
of the single year pattern — but nothing caps it at 2025. -/
theorem extractField_year_bounds {fuel : Nat} {t : List Char} {y : ℤ}
    (h : extractField fuel [yearRE] t = .ok (some y)) : 2000 ≤ y ∧ y ≤ 2099 := by
  simp only [extractField] at h
  cases hr : research fuel yearRE t with
  | none =>
    rw [hr] at h
    simp at h
  | some cap =>
    cases cap with
    | none =>
      rw [hr] at h
      simp at h
    | some g =>
      rw [hr] at h
      obtain ⟨u, hc⟩ := research_sound fuel yearRE t (some g) hr
      obtain ⟨d1, d2, hg, hd1, hd2⟩ := yearRE_capture hc
      subst hg
      have h' : Except.map some (pyIntOfGroup ['2', '0', d1, d2]) =
          Except.ok (some y) := h
      rw [pyIntOfGroup_year hd1 hd2] at h'
      simp only [Except.map] at h'
      cases h'
      obtain ⟨h1a, h1b⟩ := digit_toNat_le hd1
      obtain ⟨h2a, h2b⟩ := digit_toNat_le hd2
      constructor
      · exact_mod_cast Nat.le_add_right_of_le (by omega)
      · exact_mod_cast (by omega : 2000 + 10 * (d1.toNat - 48) + (d2.toNat - 48) ≤ 2099)

/-- Any resolved hand is a single-digit value in `[0, 9]`. -/
theorem handValue_bounds {fuel : Nat} {t : List Char} {v : ℤ}
    (h : handValue fuel t = .ok (some v)) : 0 ≤ v ∧ v ≤ 9 := by
  simp only [handValue] at h
  cases hr : research fuel handRE t with
  | none =>
    rw [hr] at h
    simp at h
  | some cap =>
    cases cap with
    | none =>
      rw [hr] at h
      simp at h
    | some g =>
      rw [hr] at h
      obtain ⟨u, hc⟩ := research_sound fuel handRE t (some g) hr
      obtain ⟨d, hg, hd⟩ := handRE_capture hc
      subst hg
      simp only [digitsVal, List.foldl] at h
      cases h
      obtain ⟨ha, hb⟩ := digit_toNat_le hd
      constructor
      · exact_mod_cast Nat.zero_le _
      · exact_mod_cast (by omega : 10 * 0 + (d.toNat - 48) ≤ 9)

/-- Every value `extract` resolves is nonnegative: it is `int` applied to
a digit string. -/
theorem extractField_nonneg {fuel : Nat} (ps : List RE) {t : List Char} {v : ℤ}
    (h : extractField fuel ps t = .ok (some v)) : 0 ≤ v := by
  induction ps with
  | nil => simp [extractField] at h
  | cons p rest ih =>
    simp only [extractField] at h
    cases hr : research fuel p t with
    | none =>
      rw [hr] at h
      exact ih h
    | some cap =>
      cases cap with
      | none =>
        rw [hr] at h
        simp at h
      | some g =>
        rw [hr] at h
        simp only [pyIntOfGroup] at h
        by_cases he : (g.filter isDigitChar).isEmpty
        · rw [if_pos he] at h
          simp [Except.map] at h
        · rw [if_neg he] at h
          simp only [Except.map] at h
          cases h
          exact_mod_cast Nat.zero_le _

/-- Same for the separately-coded hand extraction. -/
theorem handValue_nonneg {fuel : Nat} {t : List Char} {v : ℤ}
    (h : handValue fuel t = .ok (some v)) : 0 ≤ v :=
  (handValue_bounds h).1

/- Facts about clamping and rounding, for the rating-range claims. -/

theorem roundHalfEven_intCast (n : ℤ) : roundHalfEven ((n : ℤ) : ℝ) = n := by
  simp only [roundHalfEven, Int.fract_intCast, Int.floor_intCast]
  norm_num

theorem floor_le_roundHalfEven (x : ℝ) : ⌊x⌋ ≤ roundHalfEven x := by
  unfold roundHalfEven
  split_ifs <;> omega

theorem roundHalfEven_nonneg {x : ℝ} (hx : 0 ≤ x) : 0 ≤ roundHalfEven x :=
  le_trans (Int.floor_nonneg.mpr hx) (floor_le_roundHalfEven x)

theorem roundHalfEven_le {x : ℝ} {m : ℤ} (hx : x ≤ (m : ℝ)) : roundHalfEven x ≤ m := by
  have hfl : ⌊x⌋ ≤ m := by
    have := Int.floor_le_floor hx
    rwa [Int.floor_intCast] at this
  have hup : ¬Int.fract x < 1 / 2 → ⌊x⌋ + 1 ≤ m := by
    intro h1
    have hfr : (1 : ℝ) / 2 ≤ Int.fract x := le_of_not_lt h1
    have hadd : (⌊x⌋ : ℝ) + Int.fract x = x := Int.floor_add_fract x
    have hlt : (⌊x⌋ : ℝ) < (m : ℝ) := by linarith
    have : ⌊x⌋ < m := by exact_mod_cast hlt
    omega
  unfold roundHalfEven
  split_ifs with h1 h2 h3
  · exact hfl
  · exact hup h1
  · exact hfl
  · exact hup h1

/- Claim theorems. -/

/-- C1: the feature transformer emits exactly 11 numbers, in the fixed
order age, engineCc, hand, km, price, kmPerYear, pricePerCc, pricePerYear,
normalizedPrice, logKm, logPrice, with age = 2025 - year (fixed epoch),
kmPerYear = km / max(1, age), pricePerCc = price / engineCc,
pricePerYear = price / max(1, age), normalizedPrice = price /
maxObservedPrice, logKm = ln(1 + km), logPrice = ln(1 + price); and on
the concrete fields (2020, 600, 1, 8000, 35000) with maxObservedPrice
100000 the vector is exactly (5, 600, 1, 8000, 35000, 1600, 175/3,
7000, 0.35, ln 8001, ln 35001) — exact equality, hence well within the
claimed 1e-6 tolerance. -/
theorem featureRow_matches_spec :
    (∀ (mp : ℝ) (y e h k p : ℤ),
      (featureRow mp y e h k p).length = 11 ∧
      featureRow mp y e h k p =
        [((2025 - y : ℤ) : ℝ), (e : ℝ), (h : ℝ), (k : ℝ), (p : ℝ),
          (k : ℝ) / ((max 1 (2025 - y) : ℤ) : ℝ),
          (p : ℝ) / (e : ℝ),
          (p : ℝ) / ((max 1 (2025 - y) : ℤ) : ℝ),
          (p : ℝ) / mp,
          Real.log (1 + (k : ℝ)),
          Real.log (1 + (p : ℝ))]) ∧
    featureRow 100000 2020 600 1 8000 35000 =
      [5, 600, 1, 8000, 35000, 1600, 175 / 3, 7000, 0.35,
        Real.log 8001, Real.log 35001] := by
  constructor
  · intro mp y e h k p
    exact ⟨rfl, rfl⟩
  · have hmax : (max 1 (2025 - 2020 : ℤ)) = 5 := by decide
    simp only [featureRow, hmax]
    norm_num

/-- C2 counterexample: when the external model returns plus-infinity the
code silently clamps it to 10 (and NaN propagates to a NaN rating); no
error is raised, contrary to the claim that non-finite model outputs make
`predict` fail with an error. -/
theorem predict_specials_not_errored :
    predict_rating (fun _ => PyFloat.inf) 100000 2020 600 1 8000 35000 =
      .ok (.fin 10) ∧
    predict_rating (fun _ => PyFloat.nan) 100000 2020 600 1 8000 35000 =
      .ok .nan := by
  constructor
  · simp only [predict_rating, if_neg (by norm_num : ¬(600 : ℤ) = 0), npClip, pyRound2,
      Except.ok.injEq, PyFloat.fin.injEq]
    rw [show ((10 : ℝ) * 100) = ((1000 : ℤ) : ℝ) by norm_num, roundHalfEven_intCast]
    norm_num
  · rfl

/-- C2 amended: for any fields with a nonzero engine size, a finite model
output yields a rating that is an integer multiple of 0.01 inside
[0, 10]; a model output of +inf is silently clamped to 10, -inf to 0,
and NaN yields a NaN rating — non-finite outputs never produce an
error. -/
theorem predict_rating_range :
    ∀ (mdl : List ℝ → PyFloat) (mp : ℝ) (y e h k p : ℤ), e ≠ 0 →
      (∀ r : ℝ, mdl (featureRow mp y e h k p) = .fin r →
        ∃ n : ℤ, predict_rating mdl mp y e h k p = .ok (.fin ((n : ℝ) / 100)) ∧
          0 ≤ n ∧ n ≤ 1000) ∧
      (mdl (featureRow mp y e h k p) = .nan →
        predict_rating mdl mp y e h k p = .ok .nan) ∧
      (mdl (featureRow mp y e h k p) = .inf →
        predict_rating mdl mp y e h k p = .ok (.fin 10)) ∧
      (mdl (featureRow mp y e h k p) = .ninf →
        predict_rating mdl mp y e h k p = .ok (.fin 0)) := by
  intro mdl mp y e h k p he
  refine ⟨?_, ?_, ?_, ?_⟩
  · intro r hr
    refine ⟨roundHalfEven (min 10 (max 0 r) * 100), ?_, ?_, ?_⟩
    · simp only [predict_rating, if_neg he, hr, npClip, pyRound2]
    · exact roundHalfEven_nonneg (by positivity)
    · refine roundHalfEven_le ?_
      push_cast
      have h1 : min 10 (max 0 r) ≤ 10 := min_le_left _ _
      nlinarith
  · intro hr
    simp only [predict_rating, if_neg he, hr, npClip, pyRound2]
  · intro hr
    simp only [predict_rating, if_neg he, hr, npClip, pyRound2,
      Except.ok.injEq, PyFloat.fin.injEq]
    rw [show ((10 : ℝ) * 100) = ((1000 : ℤ) : ℝ) by norm_num, roundHalfEven_intCast]
    norm_num
  · intro hr
    simp only [predict_rating, if_neg he, hr, npClip, pyRound2,
      Except.ok.injEq, PyFloat.fin.injEq]
    rw [show ((0 : ℝ) * 100) = ((0 : ℤ) : ℝ) by norm_num, roundHalfEven_intCast]
    norm_num

/-- C2 witness: the amended theorem applied at a concrete finite model. -/
theorem predict_rating_range_witness :
    ∃ n : ℤ,
      predict_rating (fun _ => PyFloat.fin 7) 100000 2020 600 1 8000 35000 =
        .ok (.fin ((n : ℝ) / 100)) ∧ 0 ≤ n ∧ n ≤ 1000 :=
  (predict_rating_range (fun _ => PyFloat.fin 7) 100000 2020 600 1 8000 35000
    (by norm_num)).1 7 rfl

/-- C3: the classifier is the claimed trichotomy — all five resolved gives
Complete with those values; none resolved gives the error
"No valid fields found."; a proper mixture gives Partial carrying exactly
the given per-field options, the unresolved ones as null, never defaulted
or zeroed. -/
theorem classify_trichotomy :
    (∀ a b c d f : ℤ,
      classify (some a) (some b) (some c) (some d) (some f) =
        .complete a b c d f) ∧
    classify none none none none none = .failed "No valid fields found." ∧
    (∀ y e h k p : Option ℤ,
      (y.isNone || e.isNone || h.isNone || k.isNone || p.isNone) = true →
      (y.isSome || e.isSome || h.isSome || k.isSome || p.isSome) = true →
      classify y e h k p = .missingSome y e h k p) := by
  refine ⟨fun a b c d f => rfl, rfl, ?_⟩
  intro y e h k p h1 h2
  simp only [classify]
  rw [h1, h2]
  rfl

/-- C3 witness: the mixed case at a concrete input. -/
theorem classify_trichotomy_witness :
    classify (some 2020) none none none none =
      .missingSome (some 2020) none none none none :=
  classify_trichotomy.2.2 (some 2020) none none none none (by decide) (by decide)

/-- C4 counterexample: the extractor has no bound checks.  On a page whose
text is "מחיר: 500 ₪ נסיעה: 50" it resolves price = 500 (claimed floor
2000) and km = 50 (claimed floor 100), and the pipeline returns them in
the Partial result instead of marking them unresolved. -/
theorem below_floor_values_resolved :
    extract_data_from_url "מחיר: 500 ₪ נסיעה: 50" =
      .missingSome none none none (some 50) (some 500) ∧
    (500 : ℤ) < 2000 ∧ (50 : ℤ) < 100 :=
  ⟨by decide, by norm_num, by norm_num⟩

/-- C4 amended: no plausibility floors are applied — a price or km whose
pattern matches syntactically is resolved at its parsed value, even below
the spec floors of 2000 and 100. -/
theorem no_bound_checks_on_price_km :
    extractField 23 [priceRE1, priceRE2]
        (normalizeText "מחיר: 500 ₪ נסיעה: 50".data) = .ok (some 500) ∧
    extractField 23 [kmRE1, kmRE2]
        (normalizeText "מחיר: 500 ₪ נסיעה: 50".data) = .ok (some 50) := by
  decide

/-- C5 counterexample: a labeled year of 2099 — far above the claimed
upper bound 2025 — is resolved, not rejected. -/
theorem year_2099_resolved :
    extract_data_from_url "שנה: 2099" =
      .missingSome (some 2099) none none none none ∧
    ¬((2099 : ℤ) ≤ 2025) :=
  ⟨by decide, by norm_num⟩

/-- C5 amended: every resolved year lies in [2000, 2099] — the range
enforced by the pattern shape `20\d{2}` — for every input text and any
fuel; below 2000 a year can never be resolved, but nothing rejects
2026..2099. -/
theorem year_resolved_in_pattern_range :
    ∀ (fuel : Nat) (t : List Char) (y : ℤ),
      extractField fuel [yearRE] t = .ok (some y) → 2000 ≤ y ∧ y ≤ 2099 :=
  fun _ _ _ h => extractField_year_bounds h

/-- C5 witness: the amended bound at a concrete labeled text. -/
theorem year_resolved_in_pattern_range_witness :
    2000 ≤ (2020 : ℤ) ∧ (2020 : ℤ) ≤ 2099 :=
  year_resolved_in_pattern_range 12 (normalizeText "שנה: 2020".data) 2020 (by decide)

/-- C6 counterexample: a text that is only the bare token "2019" resolves
no year at all (there is no bare-year fallback pattern), so the pipeline
reports no valid fields — the claim expected year = 2019. -/
theorem bare_year_not_resolved :
    extractField 6 [yearRE] (normalizeText "2019".data) = .ok none ∧
    extract_data_from_url "2019" = .failed "No valid fields found." := by
  decide

/-- C6 amended: year extraction uses only the single labeled pattern
`שנה[:\s]*(20\d{2})`: a labeled "שנה 2019" resolves 2019, while the bare
token "2019" and the out-of-pattern "1998" (even labeled) resolve
nothing. -/
theorem year_labeled_only :
    extractField 13 [yearRE] (normalizeText "שנה 2019".data) = .ok (some 2019) ∧
    extractField 6 [yearRE] (normalizeText "2019".data) = .ok none ∧
    extractField 13 [yearRE] (normalizeText "שנה: 1998".data) = .ok none := by
  decide

/-- C7 counterexample: on a text with a price but no ownership marker the
hand field is left unresolved (null in the Partial result), not defaulted
to 2 as the claim states. -/
theorem hand_not_defaulted_to_two :
    extract_data_from_url "מחיר: 25,000 ₪" =
      .missingSome none none none none (some 25000) ∧
    (none : Option ℤ) ≠ some 2 :=
  ⟨by decide, by decide⟩

/-- C7 amended: when the ownership pattern `יד\s*(\d)` does not match,
hand stays None — no default of 2 is ever substituted before
classification (this variant omits the default some variants have). -/
theorem hand_unresolved_without_match :
    (∀ (fuel : Nat) (t : List Char),
      research fuel handRE t = none → handValue fuel t = .ok none) ∧
    extract_data_from_url "מחיר: 25,000 ₪" =
      .missingSome none none none none (some 25000) := by
  constructor
  · intro fuel t h
    simp only [handValue, h]
  · decide

/-- C7 witness: the amended no-default rule at a concrete text with no
ownership marker. -/
theorem hand_unresolved_without_match_witness :
    handValue 6 (normalizeText "שלום".data) = .ok none :=
  hand_unresolved_without_match.1 6 (normalizeText "שלום".data) (by decide)

/-- C8 amended: with engineCc = 0 the transformer raises a
division-by-zero error before touching the model — never an infinity —
for any inputs, independent of the extractor; the manual path turns it
into the structured response {"error": "division by zero"} (a generic
caught-exception message, not a dedicated InvalidInput error); but the
URL path has no such wrapper (see the counterexample). -/
theorem zero_engine_manual_path :
    ∀ (mdl : List ℝ → PyFloat) (mp : ℝ) (y h k p : ℤ),
      predict_rating mdl mp y 0 h k p = .error "division by zero" ∧
      predict_manual mdl mp y 0 h k p = .errorJson "division by zero" := by
  intro mdl mp y h k p
  constructor
  · simp [predict_rating]
  · simp [predict_manual, predict_rating]

/-- C8 counterexample: on the URL path, a page whose complete extraction
carries engineCc = 0 makes the pipeline end in an uncaught
ZeroDivisionError — not a structured InvalidInput error — because the
transformer has no independent guard and line 179 is outside any
try/except. -/
theorem zero_engine_url_uncaught :
    predict_from_url (fun _ => PyFloat.fin 5) 100000
        "שנה: 2020 יד 1 מחיר: 35,000 ₪ נסיעה: 8,000 00 סמ" =
      .uncaughtExc "division by zero" := by
  have hx : extract_data_from_url "שנה: 2020 יד 1 מחיר: 35,000 ₪ נסיעה: 8,000 00 סמ" =
      .complete 2020 0 1 8000 35000 := by decide
  simp only [predict_from_url, hx]
  simp [predict_rating]

/-- C9: the claim that no exception ever escapes is right per the spec and
wrong in the code — `extract_data_from_url` and `predict_manual` are
wrapped, but `predict_from_url` calls `predict_rating` outside any
`try/except`.  The page text below extracts Complete with engineCc = 0
(the bare "00 סמ" matches the engine pattern), and the resulting
ZeroDivisionError escapes the URL handler uncaught. -/
theorem predict_from_url_uncaught_escape :
    extract_data_from_url "שנה: 2020 יד 1 מחיר: 35,000 ₪ נסיעה: 8,000 00 סמ" =
      .complete 2020 0 1 8000 35000 ∧
    predict_from_url (fun _ => PyFloat.fin 7) 100000
        "שנה: 2020 יד 1 מחיר: 35,000 ₪ נסיעה: 8,000 00 סמ" =
      .uncaughtExc "division by zero" := by
  have hx : extract_data_from_url "שנה: 2020 יד 1 מחיר: 35,000 ₪ נסיעה: 8,000 00 סמ" =
      .complete 2020 0 1 8000 35000 := by decide
  refine ⟨hx, ?_⟩
  simp only [predict_from_url, hx]
  simp [predict_rating]

/-- C10: every resolved field value is the nonnegative integer read off
the digits of the captured group (thousands separators stripped:
"25,000" parses to 25000); a resolved hand is a single decimal digit —
0, 6 and 9 are all accepted — and engineCc can resolve to 0 from the
digits "00". -/
theorem extracted_values_digit_semantics :
    (∀ (fuel : Nat) (ps : List RE) (t : List Char) (v : ℤ),
      extractField fuel ps t = .ok (some v) → 0 ≤ v) ∧
    (∀ (fuel : Nat) (t : List Char) (v : ℤ),
      handValue fuel t = .ok (some v) → 0 ≤ v ∧ v ≤ 9) ∧
    extractField 18 [priceRE1, priceRE2]
      (normalizeText "מחיר: 25,000 ₪".data) = .ok (some 25000) ∧
    handValue 8 (normalizeText "יד 0".data) = .ok (some 0) ∧
    handValue 8 (normalizeText "יד 6".data) = .ok (some 6) ∧
    handValue 8 (normalizeText "יד 9".data) = .ok (some 9) ∧
    extractField 8 [engineRE1, engineRE2]
      (normalizeText "00 סמ".data) = .ok (some 0) := by
  refine ⟨fun fuel ps t v h => extractField_nonneg ps h,
    fun fuel t v h => handValue_bounds h, ?_, ?_, ?_, ?_, ?_⟩ <;> decide

/-- C10 witness: the nonnegativity invariant applied at the concrete
thousands-separated price. -/
theorem extracted_values_digit_semantics_witness :
    (0 : ℤ) ≤ 25000 :=
  extracted_values_digit_semantics.1 18 [priceRE1, priceRE2]
    (normalizeText "מחיר: 25,000 ₪".data) 25000 (by decide)
